import Mathlib

/-!
Shallow embedding of the resume skill-analysis service (src/main.py): the
tolerant LLM-completion-to-JSON extraction pipeline, the fallback task
generator, and the three analysis orchestrator endpoints, modelled over an
abstract backend oracle.  Raw text is modelled as `List Char`; the Python
function `json.loads` is modelled by an executable fuel-based parser `json_loads`.
-/

/-- JSON whitespace characters, as accepted between tokens by Python `json.loads`. -/
def isJsonWs (c : Char) : Bool :=
  c = ' ' || c = '\t' || c = '\n' || c = '\r'

/-- Whitespace stripped by Python `str.strip()` (ASCII subset: space, tab,
newline, carriage return, vertical tab, form feed). -/
def isPyWs (c : Char) : Bool :=
  isJsonWs c || c = (Char.ofNat 11) || c = (Char.ofNat 12)

/-- Model of Python `str.strip()`: drop leading and trailing whitespace. -/
def pyStrip (s : List Char) : List Char :=
  ((s.dropWhile isPyWs).reverse.dropWhile isPyWs).reverse

/-- Index of the first occurrence of a character, as in Python `str.find`
(with `none` standing for -1). -/
def firstIdx (c : Char) : List Char → Option Nat
  | [] => none
  | x :: xs => if x = c then some 0 else (firstIdx c xs).map (· + 1)

/-- Index of the last occurrence of a character, as in Python `str.rfind`
(with `none` standing for -1). -/
def lastIdx (c : Char) : List Char → Option Nat
  | [] => none
  | x :: xs =>
    match lastIdx c xs with
    | some i => some (i + 1)
    | none => if x = c then some 0 else none

/-- The brace-slicing heuristic shared by all extraction sites of src/main.py:
if the first opening brace precedes the last closing brace, slice that
substring as the JSON candidate, otherwise keep the whole text
(`analysis_text[first_brace:last_brace + 1]`). -/
def braceSlice (s : List Char) : List Char :=
  match firstIdx '\x7b' s, lastIdx '\x7d' s with
  | some f, some l => if f < l then (s.drop f).take (l + 1 - f) else s
  | some _, none => s
  | none, _ => s

/-- Whether the text contains an opening brace strictly before a closing
brace, i.e. whether `braceSlice` takes its slicing branch. -/
def hasPair (s : List Char) : Bool :=
  match firstIdx '\x7b' s, lastIdx '\x7d' s with
  | some f, some l => decide (f < l)
  | _, _ => false

/-- Code-fence stripping from the analyze_skills endpoint (src/main.py lines
129-134): drop a leading three-backtick json marker. -/
def stripLeadFence (s : List Char) : List Char :=
  if s.take 7 = ("```json".toList) then s.drop 7 else s

/-- Code-fence stripping: drop a remaining leading three-backtick marker. -/
def stripLeadFence3 (s : List Char) : List Char :=
  if s.take 3 = ("```".toList) then s.drop 3 else s

/-- Code-fence stripping: drop a trailing three-backtick marker
(`analysis_text[:-3]` guarded by `endswith`). -/
def stripTrailFence (s : List Char) : List Char :=
  if s.reverse.take 3 = ("```".toList) then (s.reverse.drop 3).reverse else s

/-- The full fence-stripping preprocessing used only by analyze_skills
(src/main.py lines 127-135): strip, remove fences, strip again. -/
def stripFences (s : List Char) : List Char :=
  pyStrip (stripTrailFence (stripLeadFence3 (stripLeadFence (pyStrip s))))

/-- JSON values as produced by Python `json.loads`; numbers keep their source
token since no code path inspects numeric magnitude. -/
inductive JsonValue where
  | null : JsonValue
  | bool (b : Bool) : JsonValue
  | num (tok : List Char) : JsonValue
  | str (s : List Char) : JsonValue
  | arr (elems : List JsonValue) : JsonValue
  | obj (members : List (List Char × JsonValue)) : JsonValue

/-- Python `dict.get(key, default)` on the member list of a parsed object;
later duplicate keys win, matching `json.loads` dict construction. -/
def jget : List (List Char × JsonValue) → List Char → JsonValue → JsonValue
  | [], _, d => d
  | (k, v) :: rest, key, d => jget rest key (if k = key then v else d)

/-- Skip JSON inter-token whitespace. -/
def skipWs (s : List Char) : List Char :=
  s.dropWhile isJsonWs

/-- Value of a hexadecimal digit. -/
def hexVal (c : Char) : Option Nat :=
  if '0' ≤ c ∧ c ≤ '9' then some (c.toNat - 48)
  else if 'a' ≤ c ∧ c ≤ 'f' then some (c.toNat - 87)
  else if 'A' ≤ c ∧ c ≤ 'F' then some (c.toNat - 55)
  else none

/-- Read exactly four hex digits of a unicode escape. -/
def parseU : List Char → Option (Nat × List Char)
  | a :: b :: c :: d :: r =>
    match hexVal a, hexVal b, hexVal c, hexVal d with
    | some x, some y, some z, some w => some (((x * 16 + y) * 16 + z) * 16 + w, r)
    | _, _, _, _ => none
  | _ => none

/-- Simple JSON string escapes. -/
def escChar (e : Char) : Option Char :=
  if e = '"' then some '"'
  else if e = '\\' then some '\\'
  else if e = '/' then some '/'
  else if e = 'b' then some (Char.ofNat 8)
  else if e = 'f' then some (Char.ofNat 12)
  else if e = 'n' then some '\n'
  else if e = 'r' then some '\r'
  else if e = 't' then some '\t'
  else none

/-- Body of a JSON string after the opening quote, in strict mode (raw
control characters rejected, as by Python `json.loads`).  Surrogate pairs in
unicode escapes are combined; lone surrogates are approximated by the
fallback character of `Char.ofNat`, which no code path inspects. -/
def parseStrB : Nat → List Char → Option (List Char × List Char)
  | 0, _ => none
  | _, [] => none
  | fuel + 1, c :: r =>
    if c = '"' then some ([], r)
    else if c = '\\' then
      match r with
      | [] => none
      | e :: r2 =>
        if e = 'u' then
          match parseU r2 with
          | none => none
          | some (n, r3) =>
            if 0xD800 ≤ n ∧ n < 0xDC00 then
              match r3 with
              | '\\' :: 'u' :: r4 =>
                match parseU r4 with
                | some (n2, r5) =>
                  if 0xDC00 ≤ n2 ∧ n2 < 0xE000 then
                    (parseStrB fuel r5).map
                      (fun p => (Char.ofNat (0x10000 + (n - 0xD800) * 0x400 + (n2 - 0xDC00)) :: p.1, p.2))
                  else
                    (parseStrB fuel r5).map (fun p => (Char.ofNat n :: Char.ofNat n2 :: p.1, p.2))
                | none => none
              | _ => (parseStrB fuel r3).map (fun p => (Char.ofNat n :: p.1, p.2))
            else (parseStrB fuel r3).map (fun p => (Char.ofNat n :: p.1, p.2))
        else
          match escChar e with
          | some ec => (parseStrB fuel r2).map (fun p => (ec :: p.1, p.2))
          | none => none
    else if c.toNat < 32 then none
    else (parseStrB fuel r).map (fun p => (c :: p.1, p.2))

/-- Decimal digit test. -/
def isDigit (c : Char) : Bool :=
  '0' ≤ c && c ≤ '9'

/-- Integer part of a JSON number: a lone zero or a nonzero digit followed by
digits (leading zeros rejected, matching the JSON grammar). -/
def parseIntPart : List Char → Option (List Char × List Char)
  | [] => none
  | c :: r =>
    if c = '0' then some (['0'], r)
    else if isDigit c then some (c :: r.takeWhile isDigit, r.dropWhile isDigit)
    else none

/-- Optional fraction part: a dot requires at least one digit. -/
def parseFrac (s : List Char) : Option (List Char × List Char) :=
  match s with
  | '.' :: r =>
    let ds := r.takeWhile isDigit
    if ds.isEmpty then none else some ('.' :: ds, r.dropWhile isDigit)
  | _ => some ([], s)

/-- Optional exponent part: e or E, optional sign, at least one digit. -/
def parseExp (s : List Char) : Option (List Char × List Char) :=
  match s with
  | [] => some ([], [])
  | c :: r =>
    if c = 'e' || c = 'E' then
      match r with
      | [] => none
      | s2 :: r2 =>
        if s2 = '+' || s2 = '-' then
          let ds := r2.takeWhile isDigit
          if ds.isEmpty then none else some (c :: s2 :: ds, r2.dropWhile isDigit)
        else
          let ds := r.takeWhile isDigit
          if ds.isEmpty then none else some (c :: ds, r.dropWhile isDigit)
    else some ([], s)

/-- Unsigned JSON number token. -/
def parsePosNum (s : List Char) : Option (List Char × List Char) :=
  match parseIntPart s with
  | none => none
  | some (ip, r1) =>
    match parseFrac r1 with
    | none => none
    | some (fp, r2) =>
      match parseExp r2 with
      | none => none
      | some (ep, r3) => some (ip ++ fp ++ ep, r3)

/-- A JSON number, including the non-standard -Infinity accepted by Python. -/
def parseNumber (s : List Char) : Option (JsonValue × List Char) :=
  match s with
  | '-' :: r =>
    if r.take 8 = ("Infinity".toList) then
      some (JsonValue.num ('-' :: ("Infinity".toList)), r.drop 8)
    else
      match parsePosNum r with
      | some (tok, rest) => some (JsonValue.num ('-' :: tok), rest)
      | none => none
  | _ =>
    match parsePosNum s with
    | some (tok, rest) => some (JsonValue.num tok, rest)
    | none => none

mutual

/-- One JSON value starting at the head of the input (whitespace already
skipped by the caller), returning the value and the unconsumed remainder. -/
def parseVal : Nat → List Char → Option (JsonValue × List Char)
  | 0, _ => none
  | fuel + 1, s =>
    match s with
    | [] => none
    | c :: rest =>
      if c = '\x7b' then
        match skipWs rest with
        | '\x7d' :: r2 => some (JsonValue.obj [], r2)
        | r2 => (parseMems fuel r2).map (fun p => (JsonValue.obj p.1, p.2))
      else if c = '[' then
        match skipWs rest with
        | ']' :: r2 => some (JsonValue.arr [], r2)
        | r2 => (parseElems fuel r2).map (fun p => (JsonValue.arr p.1, p.2))
      else if c = '"' then
        (parseStrB (rest.length + 1) rest).map (fun p => (JsonValue.str p.1, p.2))
      else if c = 't' then
        if rest.take 3 = ("rue".toList) then some (JsonValue.bool true, rest.drop 3) else none
      else if c = 'f' then
        if rest.take 4 = ("alse".toList) then some (JsonValue.bool false, rest.drop 4) else none
      else if c = 'n' then
        if rest.take 3 = ("ull".toList) then some (JsonValue.null, rest.drop 3) else none
      else if c = 'N' then
        if rest.take 2 = ("aN".toList) then some (JsonValue.num ("NaN".toList), rest.drop 2) else none
      else if c = 'I' then
        if rest.take 7 = ("nfinity".toList) then
          some (JsonValue.num ("Infinity".toList), rest.drop 7)
        else none
      else parseNumber (c :: rest)

/-- Nonempty member list of a JSON object, starting at a quoted key. -/
def parseMems : Nat → List Char → Option (List (List Char × JsonValue) × List Char)
  | 0, _ => none
  | fuel + 1, s =>
    match s with
    | '"' :: r =>
      match parseStrB (r.length + 1) r with
      | none => none
      | some (key, r2) =>
        match skipWs r2 with
        | ':' :: r3 =>
          match parseVal fuel (skipWs r3) with
          | none => none
          | some (v, r4) =>
            match skipWs r4 with
            | ',' :: r5 => (parseMems fuel (skipWs r5)).map (fun p => ((key, v) :: p.1, p.2))
            | '\x7d' :: r5 => some ([(key, v)], r5)
            | _ => none
        | _ => none
    | _ => none

/-- Nonempty element list of a JSON array. -/
def parseElems : Nat → List Char → Option (List JsonValue × List Char)
  | 0, _ => none
  | fuel + 1, s =>
    match parseVal fuel s with
    | none => none
    | some (v, r) =>
      match skipWs r with
      | ',' :: r2 => (parseElems fuel (skipWs r2)).map (fun p => (v :: p.1, p.2))
      | ']' :: r2 => some ([v], r2)
      | _ => none

end

/-- Model of Python `json.loads`: parse one value, require only whitespace to
remain.  The fuel exceeds twice any nesting depth a closed JSON text of this
length can have, so it never runs out on a text Python would accept. -/
def json_loads (s : List Char) : Option JsonValue :=
  match parseVal (s.length + 16) (skipWs s) with
  | some (v, rest) => if (skipWs rest).isEmpty then some v else none
  | none => none


/-- Python truthiness (`if x:`) of a parsed JSON value.  A number is falsy
exactly when its mantissa digits are all zero. -/
def zeroNumTok (tok : List Char) : Bool :=
  let t := match tok with | '-' :: r => r | _ => tok
  let mant := t.takeWhile (fun c => !(c = 'e' || c = 'E'))
  let digits := mant.filter (fun c => !(c = '.'))
  !digits.isEmpty && digits.all (fun c => c = '0')

/-- Python truthiness of a value produced by `json.loads`. -/
def pyTruthy : JsonValue → Bool
  | JsonValue.null => false
  | JsonValue.bool b => b
  | JsonValue.num tok => !(zeroNumTok tok)
  | JsonValue.str s => !s.isEmpty
  | JsonValue.arr xs => !xs.isEmpty
  | JsonValue.obj kvs => !kvs.isEmpty

/-- Whether the value is a Python list, i.e. has the append method used by
the fallback loops at src/main.py lines 333-346 and 441-454: when the parsed
weekly_tasks value is falsy but not a list, the append call raises
AttributeError, which the outer handler surfaces as a 500 server error. -/
def isList : JsonValue → Bool
  | JsonValue.arr _ => true
  | _ => false

/-- Whether Python `", ".join(x)` succeeds on the value: strings and dicts of
string keys iterate as strings, lists need every element to be a string;
numbers, booleans and None are not iterable and raise TypeError. -/
def pyJoinableSkills : JsonValue → Bool
  | JsonValue.arr xs => xs.all (fun x => match x with | JsonValue.str _ => true | _ => false)
  | JsonValue.str _ => true
  | JsonValue.obj _ => true
  | _ => false

/-- Items yielded by Python iteration (`for skill in x`) over a parsed value:
a list yields its elements, a string its characters, a dict its keys. -/
def pyIterVals : JsonValue → List JsonValue
  | JsonValue.arr xs => xs
  | JsonValue.str s => s.map (fun c => JsonValue.str [c])
  | JsonValue.obj kvs => kvs.map (fun p => JsonValue.str p.1)
  | _ => []

/-- Python f-string rendering of a skill item.  Strings, numbers, booleans
and None are rendered faithfully; `str()` of nested containers is
approximated by a placeholder, which no claim depends on. -/
def pyFStr : JsonValue → List Char
  | JsonValue.str s => s
  | JsonValue.num tok => tok
  | JsonValue.bool true => ("True".toList)
  | JsonValue.bool false => ("False".toList)
  | JsonValue.null => ("None".toList)
  | JsonValue.arr _ => ("<list>".toList)
  | JsonValue.obj _ => ("<dict>".toList)

/-- The fallback generator inlined at src/main.py lines 335-346 and 443-454:
seven fixed task templates parameterized by the skill name, truncated (as in
the source) to at most seven entries. -/
def fallback_tasks (skill : List Char) : List (List Char) :=
  [ ("Study ".toList) ++ skill ++ (" fundamentals and core concepts".toList),
    ("Complete online ".toList) ++ skill ++ (" tutorial or course".toList),
    ("Practice ".toList) ++ skill ++ (" with hands-on exercises".toList),
    ("Build a small project using ".toList) ++ skill,
    ("Read ".toList) ++ skill ++ (" documentation and best practices".toList),
    ("Join ".toList) ++ skill ++ (" community and participate in discussions".toList),
    ("Create a portfolio piece showcasing ".toList) ++ skill ].take 7

/-- The weekly-task groups built by the fallback loop: one dict per skill
item with the item itself under "skill" and the seven templates under
"tasks". -/
def fallbackGroupsJ (items : List JsonValue) : JsonValue :=
  JsonValue.arr (items.map (fun it =>
    JsonValue.obj [ (("skill".toList), it),
      (("tasks".toList), JsonValue.arr ((fallback_tasks (pyFStr it)).map JsonValue.str)) ]))

/-- Fallback groups for a list of plain string skills, as in the
weekly-task-generator endpoint where the skills come from the request. -/
def fallbackGroups (missing : List (List Char)) : JsonValue :=
  fallbackGroupsJ (missing.map JsonValue.str)

/-- The generic field-extraction step shared by _extract_skills_from_resume
and the gap/task stages (src/main.py lines 208-220, 273-286, 319-331,
427-439): strip, brace-slice, parse, and read each requested field with its
default; any failure, including a non-object parse, degrades to the default
because those sites catch every exception. -/
def extractField (raw fld : List Char) (d : JsonValue) : JsonValue :=
  match json_loads (braceSlice (pyStrip raw)) with
  | some (JsonValue.obj kvs) => jget kvs fld d
  | _ => d

/-- Outcome of the response-extraction block of analyze_skills (src/main.py
lines 126-164): a parsed field triple, the degraded default response carrying
a 500-character snippet, or the uncaught ValueError path (the
`except json.JSONDecodeError` handler does not catch the non-object
ValueError, which escapes to the generic 500 handler). -/
inductive AnalyzeOutcome where
  | fields (skills years_experience role_suggestions : JsonValue) : AnalyzeOutcome
  | degraded (raw_snippet : List Char) : AnalyzeOutcome
  | serverError : AnalyzeOutcome

/-- The extraction block of analyze_skills: fence stripping, brace slicing,
parsing, then field reads with defaults; a JSON decode failure degrades, a
non-object parse raises. -/
def analyzeExtract (raw : List Char) : AnalyzeOutcome :=
  match json_loads (braceSlice (stripFences raw)) with
  | some (JsonValue.obj kvs) =>
    AnalyzeOutcome.fields (jget kvs ("skills".toList) (JsonValue.arr []))
      (jget kvs ("years_experience".toList) JsonValue.null)
      (jget kvs ("role_suggestions".toList) (JsonValue.arr []))
  | some _ => AnalyzeOutcome.serverError
  | none => AnalyzeOutcome.degraded ((stripFences raw).take 500)

/-- The skills field computed by an analyze_skills extraction outcome, when
the request does not abort: the parsed value, the degraded default, or none
when the non-object ValueError escapes. -/
def skillsOf : AnalyzeOutcome → Option JsonValue
  | AnalyzeOutcome.fields s _ _ => some s
  | AnalyzeOutcome.degraded _ => some (JsonValue.arr [])
  | AnalyzeOutcome.serverError => none

/-- One reply of the inference backend to a generate call: a 200 response
whose envelope carries the completion text, a non-200 status, a connection
error, or a timeout. -/
inductive BackendReply where
  | ok (response : List Char) : BackendReply
  | badStatus : BackendReply
  | connectError : BackendReply
  | timeout : BackendReply

/-- The helper _extract_skills_from_resume (src/main.py lines 176-222) as a
function of the backend reply to its single call: every failure, network or
parse, degrades to an empty skills list. -/
def extractSkillsStage : BackendReply → JsonValue
  | BackendReply.ok body => extractField body ("skills".toList) (JsonValue.arr [])
  | _ => JsonValue.arr []

/-- The HTTP error classes surfaced by the endpoints. -/
inductive HttpError where
  | validation400 : HttpError
  | notFound404 : HttpError
  | serverError500 : HttpError
  | uncaught500 : HttpError
  | unavailable503 : HttpError
  | timeout504 : HttpError
deriving DecidableEq

/-- Resume resolution shared by the endpoints (truthiness semantics of
`if request.resume_id:` / `elif request.resume_text:`): a non-empty id is
looked up in the store, else non-empty inline text is used, else the request
is rejected with the validation error. -/
def resolveResume (text id : Option (List Char)) (store : List Char → Option (List Char)) :
    Except HttpError (List Char) :=
  match id with
  | some i =>
    if i.isEmpty then
      match text with
      | some t => if t.isEmpty then Except.error HttpError.validation400 else Except.ok t
      | none => Except.error HttpError.validation400
    else
      match store i with
      | some t => Except.ok t
      | none => Except.error HttpError.notFound404
  | none =>
    match text with
    | some t => if t.isEmpty then Except.error HttpError.validation400 else Except.ok t
    | none => Except.error HttpError.validation400

/-- Request body of the analyze_skills endpoint. -/
structure SkillAnalysisRequest where
  resume_text : Option (List Char)
  resume_id : Option (List Char)
  job_description : Option (List Char)

/-- Request body of the skill_gap_analysis endpoint. -/
structure SkillGapAnalysisRequest where
  resume_text : Option (List Char)
  resume_id : Option (List Char)
  target_role : List Char

/-- Request body of the weekly_learning_task_generator endpoint. -/
structure WeeklyLearningTaskRequest where
  resume_text : Option (List Char)
  resume_id : Option (List Char)
  missing_skills : Option (List (List Char))

/-- Response of the gap and weekly-task endpoints. -/
structure GapResponse where
  extracted_skills : JsonValue
  missing_skills : JsonValue
  weekly_tasks : JsonValue

/-- Response of the weekly-task endpoint, whose missing_skills are the
plain strings taken from the request. -/
structure WeeklyResponse where
  extracted_skills : JsonValue
  missing_skills : List (List Char)
  weekly_tasks : JsonValue

/-- The analyze_skills endpoint (src/main.py lines 77-174) over a backend
oracle; the second component counts the backend calls issued. -/
def analyze_skills (req : SkillAnalysisRequest) (store : List Char → Option (List Char))
    (b : Nat → BackendReply) : Except HttpError AnalyzeOutcome × Nat :=
  match resolveResume req.resume_text req.resume_id store with
  | Except.error e => (Except.error e, 0)
  | Except.ok _ =>
    match b 0 with
    | BackendReply.connectError => (Except.error HttpError.unavailable503, 1)
    | BackendReply.timeout => (Except.error HttpError.timeout504, 1)
    | BackendReply.badStatus => (Except.error HttpError.serverError500, 1)
    | BackendReply.ok body =>
      match analyzeExtract body with
      | AnalyzeOutcome.serverError => (Except.error HttpError.serverError500, 1)
      | o => (Except.ok o, 1)

/-- The skill_gap_analysis endpoint (src/main.py lines 224-362): resolve the
resume, extract skills (failures swallowed), build the gap prompt (whose
string join raises an uncaught TypeError on unjoinable skill values), issue
the gap call, and on a truthy missing list issue the task call.  The
fallback runs only when the whole parsed weekly_tasks value is the empty
list (parse failure, absent field, non-object response) or the task call
returned a non-200 status; a parsed value that is falsy but not a list makes
the append of the fallback loop raise AttributeError, surfaced as 500. -/
def skill_gap_analysis (req : SkillGapAnalysisRequest) (store : List Char → Option (List Char))
    (b : Nat → BackendReply) : Except HttpError GapResponse × Nat :=
  match resolveResume req.resume_text req.resume_id store with
  | Except.error e => (Except.error e, 0)
  | Except.ok _ =>
    let extracted := extractSkillsStage (b 0)
    if pyTruthy extracted && !pyJoinableSkills extracted then
      (Except.error HttpError.uncaught500, 1)
    else
      match b 1 with
      | BackendReply.connectError => (Except.error HttpError.unavailable503, 2)
      | BackendReply.timeout => (Except.error HttpError.timeout504, 2)
      | BackendReply.badStatus => (Except.error HttpError.serverError500, 2)
      | BackendReply.ok body =>
        let missing := extractField body ("missing_skills".toList) (JsonValue.arr [])
        if !pyTruthy missing then
          (Except.ok ⟨extracted, missing, JsonValue.arr []⟩, 2)
        else if !pyJoinableSkills missing then
          (Except.error HttpError.serverError500, 2)
        else
          match b 2 with
          | BackendReply.connectError => (Except.error HttpError.unavailable503, 3)
          | BackendReply.timeout => (Except.error HttpError.timeout504, 3)
          | BackendReply.badStatus =>
            (Except.ok ⟨extracted, missing, fallbackGroupsJ (pyIterVals missing)⟩, 3)
          | BackendReply.ok tbody =>
            let wt := extractField tbody ("weekly_tasks".toList) (JsonValue.arr [])
            if pyTruthy wt then (Except.ok ⟨extracted, missing, wt⟩, 3)
            else if isList wt then
              (Except.ok ⟨extracted, missing, fallbackGroupsJ (pyIterVals missing)⟩, 3)
            else (Except.error HttpError.serverError500, 3)

/-- The weekly_learning_task_generator endpoint (src/main.py lines 364-470):
an explicit non-empty missing-skills list goes straight to the task call
(where a non-200 status aborts with 500, unlike the gap endpoint); a truthy
parsed weekly_tasks value is returned unchanged, an empty-list value is
replaced by the fallback groups, and a falsy non-list value makes the
append of the fallback loop raise AttributeError, surfaced as 500.
Otherwise the resume is resolved, skills are extracted (failures
swallowed), and the endpoint returns immediately with empty missing skills
and tasks. -/
def weekly_learning_task_generator (req : WeeklyLearningTaskRequest)
    (store : List Char → Option (List Char)) (b : Nat → BackendReply) :
    Except HttpError WeeklyResponse × Nat :=
  let missing := req.missing_skills.getD []
  if missing.isEmpty then
    match resolveResume req.resume_text req.resume_id store with
    | Except.error e => (Except.error e, 0)
    | Except.ok _ =>
      (Except.ok ⟨extractSkillsStage (b 0), [], JsonValue.arr []⟩, 1)
  else
    match b 0 with
    | BackendReply.connectError => (Except.error HttpError.unavailable503, 1)
    | BackendReply.timeout => (Except.error HttpError.timeout504, 1)
    | BackendReply.badStatus => (Except.error HttpError.serverError500, 1)
    | BackendReply.ok body =>
      let wt := extractField body ("weekly_tasks".toList) (JsonValue.arr [])
      if pyTruthy wt then (Except.ok ⟨JsonValue.arr [], missing, wt⟩, 1)
      else if isList wt then
        (Except.ok ⟨JsonValue.arr [], missing, fallbackGroups missing⟩, 1)
      else (Except.error HttpError.serverError500, 1)

/-- Number of elements of a JSON array, zero otherwise. -/
def arrLen : JsonValue → Nat
  | JsonValue.arr xs => xs.length
  | _ => 0

/-- Number of tasks of a weekly-task group dict. -/
def groupTasksLen : JsonValue → Nat
  | JsonValue.obj kvs => arrLen (jget kvs ("tasks".toList) (JsonValue.arr []))
  | _ => 0

/-- First group of a weekly-task array. -/
def firstGroup : JsonValue → JsonValue
  | JsonValue.arr (g :: _) => g
  | _ => JsonValue.null


/-- Text free of both brace characters; fence markers and whitespace are
brace-free, which is what makes fence stripping commute with brace slicing. -/
def braceFree (l : List Char) : Bool :=
  l.all (fun c => !(c = '\x7b' || c = '\x7d'))

theorem braceFree_not_mem_open {l : List Char} (h : braceFree l = true) : '\x7b' ∉ l := by
  intro hm
  have := List.all_eq_true.mp h _ hm
  simp at this

theorem braceFree_not_mem_close {l : List Char} (h : braceFree l = true) : '\x7d' ∉ l := by
  intro hm
  have := List.all_eq_true.mp h _ hm
  simp at this

theorem braceFree_append {x y : List Char} :
    braceFree (x ++ y) = (braceFree x && braceFree y) := by
  simp [braceFree, List.all_append]

theorem braceFree_reverse {l : List Char} (h : braceFree l = true) :
    braceFree l.reverse = true := by
  rw [braceFree, List.all_reverse]; exact h

theorem firstIdx_eq_none {c : Char} {l : List Char} (h : c ∉ l) : firstIdx c l = none := by
  induction l with
  | nil => rfl
  | cons a l ih =>
    rw [List.mem_cons, not_or] at h
    rw [firstIdx, if_neg (fun hac => h.1 hac.symm), ih h.2]
    rfl

theorem lastIdx_eq_none {c : Char} {l : List Char} (h : c ∉ l) : lastIdx c l = none := by
  induction l with
  | nil => rfl
  | cons a l ih =>
    rw [List.mem_cons, not_or] at h
    rw [lastIdx, ih h.2]
    exact if_neg (fun hac => h.1 hac.symm)

theorem firstIdx_append (c : Char) (p m : List Char) :
    firstIdx c (p ++ m) =
      match firstIdx c p with
      | some i => some i
      | none => (firstIdx c m).map (· + p.length) := by
  induction p with
  | nil =>
    show firstIdx c m = _
    cases h : firstIdx c m <;> simp [firstIdx, h]
  | cons a p ih =>
    by_cases hac : a = c
    · simp [firstIdx, hac]
    · rw [List.cons_append, firstIdx, if_neg hac, ih, firstIdx, if_neg hac]
      cases hp : firstIdx c p <;> cases hm : firstIdx c m <;>
        (simp [List.length_cons]; try omega)

theorem lastIdx_append (c : Char) (p m : List Char) :
    lastIdx c (p ++ m) =
      match lastIdx c m with
      | some i => some (p.length + i)
      | none => lastIdx c p := by
  induction p with
  | nil => cases h : lastIdx c m <;> simp [lastIdx, h]
  | cons a p ih =>
    rw [List.cons_append, lastIdx, ih]
    cases hm : lastIdx c m <;> cases hp : lastIdx c p <;>
      simp [lastIdx, hp, List.length_cons] <;> omega

theorem lastIdx_lt_length {c : Char} {l : List Char} {i : Nat}
    (h : lastIdx c l = some i) : i < l.length := by
  induction l generalizing i with
  | nil => simp [lastIdx] at h
  | cons a l ih =>
    rw [lastIdx] at h
    cases hl : lastIdx c l with
    | some j =>
      rw [hl] at h
      simp only [Option.some.injEq] at h
      have := ih hl
      simp [List.length_cons]
      omega
    | none =>
      rw [hl] at h
      by_cases hac : a = c
      · rw [if_pos hac] at h
        simp only [Option.some.injEq] at h
        simp [List.length_cons]
        omega
      · rw [if_neg hac] at h
        exact absurd h (by simp)

theorem firstIdx_drop {c : Char} {l : List Char} {i : Nat}
    (h : firstIdx c l = some i) : l.drop i = c :: l.drop (i + 1) := by
  induction l generalizing i with
  | nil => simp [firstIdx] at h
  | cons a l ih =>
    rw [firstIdx] at h
    by_cases hac : a = c
    · rw [if_pos hac] at h
      simp only [Option.some.injEq] at h
      subst hac
      rw [← h]
      simp
    · rw [if_neg hac] at h
      cases hf : firstIdx c l with
      | none => rw [hf] at h; simp at h
      | some j =>
        rw [hf] at h
        simp only [Option.map_some', Option.some.injEq] at h
        subst h
        rw [List.drop_succ_cons, ih hf, List.drop_succ_cons]

theorem drop_append_add (p X : List Char) (n : Nat) :
    (p ++ X).drop (p.length + n) = X.drop n := by
  induction p with
  | nil => simp
  | cons a p ih =>
    rw [List.cons_append, List.length_cons,
      show p.length + 1 + n = (p.length + n) + 1 from by omega, List.drop_succ_cons]
    exact ih

theorem drop_append_le (m q : List Char) (f : Nat) (h : f ≤ m.length) :
    (m ++ q).drop f = m.drop f ++ q := by
  induction m generalizing f with
  | nil =>
    have hf : f = 0 := Nat.le_zero.mp (by simpa using h)
    subst hf
    simp
  | cons a m ih =>
    cases f with
    | zero => simp
    | succ f =>
      rw [List.cons_append, List.drop_succ_cons, List.drop_succ_cons]
      exact ih f (by simpa using h)

theorem take_append_le (m q : List Char) (n : Nat) (h : n ≤ m.length) :
    (m ++ q).take n = m.take n := by
  induction m generalizing n with
  | nil =>
    have hn : n = 0 := Nat.le_zero.mp (by simpa using h)
    subst hn
    simp
  | cons a m ih =>
    cases n with
    | zero => simp
    | succ n =>
      rw [List.cons_append, List.take_succ_cons, List.take_succ_cons]
      rw [ih n (by simpa using h)]

/-- The text t is the text u surrounded by brace-free padding; every fence
and whitespace stripping step of the pipeline relates its input and output
this way. -/
def Sandw (t u : List Char) : Prop :=
  ∃ p q, t = p ++ u ++ q ∧ braceFree p = true ∧ braceFree q = true

theorem sandw_refl (t : List Char) : Sandw t t :=
  ⟨[], [], by simp, rfl, rfl⟩

theorem sandw_trans {a b c : List Char} (h1 : Sandw a b) (h2 : Sandw b c) : Sandw a c := by
  obtain ⟨p, q, he, hp, hq⟩ := h1
  obtain ⟨p2, q2, he2, hp2, hq2⟩ := h2
  refine ⟨p ++ p2, q2 ++ q, ?_, ?_, ?_⟩
  · rw [he, he2]; simp
  · rw [braceFree_append, hp, hp2]; rfl
  · rw [braceFree_append, hq2, hq]; rfl

theorem pyWs_not_brace {c : Char} (h : isPyWs c = true) :
    (!(c = '\x7b' || c = '\x7d')) = true := by
  simp only [isPyWs, isJsonWs, Bool.or_eq_true, decide_eq_true_eq] at h
  rcases h with ((((h | h) | h) | h) | h) | h <;> subst h <;> decide

theorem braceFree_takeWhile_pyWs (l : List Char) :
    braceFree (l.takeWhile isPyWs) = true := by
  rw [braceFree, List.all_eq_true]
  intro c hc
  exact pyWs_not_brace (List.mem_takeWhile_imp hc)

theorem sandw_dropWhile_pyWs (l : List Char) : Sandw l (l.dropWhile isPyWs) :=
  ⟨l.takeWhile isPyWs, [], by rw [List.append_nil, List.takeWhile_append_dropWhile],
    braceFree_takeWhile_pyWs l, rfl⟩

theorem sandw_rdrop_pyWs (l : List Char) :
    Sandw l ((l.reverse.dropWhile isPyWs).reverse) := by
  refine ⟨[], (l.reverse.takeWhile isPyWs).reverse, ?_, rfl, ?_⟩
  · rw [List.nil_append, ← List.reverse_append, List.takeWhile_append_dropWhile,
      List.reverse_reverse]
  · exact braceFree_reverse (braceFree_takeWhile_pyWs l.reverse)

theorem sandw_pyStrip (l : List Char) : Sandw l (pyStrip l) :=
  sandw_trans (sandw_dropWhile_pyWs l) (sandw_rdrop_pyWs (l.dropWhile isPyWs))

theorem sandw_stripLeadFence (s : List Char) : Sandw s (stripLeadFence s) := by
  unfold stripLeadFence
  split
  · next h =>
    exact ⟨s.take 7, [], by rw [List.append_nil, List.take_append_drop],
      by rw [h]; decide, rfl⟩
  · exact sandw_refl s

theorem sandw_stripLeadFence3 (s : List Char) : Sandw s (stripLeadFence3 s) := by
  unfold stripLeadFence3
  split
  · next h =>
    exact ⟨s.take 3, [], by rw [List.append_nil, List.take_append_drop],
      by rw [h]; decide, rfl⟩
  · exact sandw_refl s

theorem sandw_stripTrailFence (s : List Char) : Sandw s (stripTrailFence s) := by
  unfold stripTrailFence
  split
  · next h =>
    refine ⟨[], (s.reverse.take 3).reverse, ?_, rfl, ?_⟩
    · rw [List.nil_append, ← List.reverse_append, List.take_append_drop,
        List.reverse_reverse]
    · exact braceFree_reverse (by rw [h]; decide)
  · exact sandw_refl s

theorem sandw_stripFences (s : List Char) : Sandw (pyStrip s) (stripFences s) := by
  unfold stripFences
  exact sandw_trans (sandw_stripLeadFence _) (sandw_trans (sandw_stripLeadFence3 _)
    (sandw_trans (sandw_stripTrailFence _) (sandw_pyStrip _)))

/-- Brace-free padding neither changes whether a brace pair exists nor, when
one exists, the sliced candidate: the heart of why fence stripping cannot
change which JSON object gets parsed. -/
theorem sandw_hasPair_braceSlice (p m q : List Char)
    (hp : braceFree p = true) (hq : braceFree q = true) :
    hasPair (p ++ m ++ q) = hasPair m ∧
    (hasPair m = true → braceSlice (p ++ m ++ q) = braceSlice m) := by
  have hpo : '\x7b' ∉ p := braceFree_not_mem_open hp
  have hpc : '\x7d' ∉ p := braceFree_not_mem_close hp
  have hqo : '\x7b' ∉ q := braceFree_not_mem_open hq
  have hqc : '\x7d' ∉ q := braceFree_not_mem_close hq
  have hf : firstIdx '\x7b' (p ++ m ++ q) = (firstIdx '\x7b' m).map (· + p.length) := by
    rw [List.append_assoc, firstIdx_append, firstIdx_eq_none hpo]
    rw [firstIdx_append]
    cases hm : firstIdx '\x7b' m with
    | some i => rfl
    | none => rw [firstIdx_eq_none hqo]; rfl
  have hl : lastIdx '\x7d' (p ++ m ++ q) = (lastIdx '\x7d' m).map (p.length + ·) := by
    rw [List.append_assoc, lastIdx_append, lastIdx_append, lastIdx_eq_none hqc]
    cases hm : lastIdx '\x7d' m with
    | some i => rfl
    | none => rw [lastIdx_eq_none hpc]; rfl
  cases hfm : firstIdx '\x7b' m with
  | none =>
    rw [hfm] at hf
    constructor
    · rw [hasPair, hf]
      rw [hasPair, hfm]
      cases lastIdx '\x7d' (p ++ m ++ q) <;> rfl
    · intro hpm
      rw [hasPair, hfm] at hpm
      exact absurd hpm (by simp)
  | some f =>
    rw [hfm] at hf
    cases hlm : lastIdx '\x7d' m with
    | none =>
      rw [hlm] at hl
      constructor
      · rw [hasPair, hf, hl, hasPair, hfm, hlm]
        simp
      · intro hpm
        rw [hasPair, hfm, hlm] at hpm
        exact absurd hpm (by simp)
    | some l =>
      rw [hlm] at hl
      have hpair_eq : hasPair (p ++ m ++ q) = hasPair m := by
        rw [hasPair, hf, hl, hasPair, hfm, hlm]
        show decide (f + p.length < p.length + l) = decide (f < l)
        rw [decide_eq_decide]
        omega
      refine ⟨hpair_eq, fun hpm => ?_⟩
      rw [hasPair, hfm, hlm] at hpm
      have hfl : f < l := by simpa using hpm
      have hlltm : l < m.length := lastIdx_lt_length hlm
      have hbm : braceSlice m = (m.drop f).take (l + 1 - f) := by
        rw [braceSlice, hfm, hlm]
        exact if_pos hfl
      rw [braceSlice, hf, hl]
      simp only [Option.map_some']
      rw [if_pos (by omega : f + p.length < p.length + l)]
      rw [hbm]
      rw [show f + p.length = p.length + f from by omega, List.append_assoc,
        drop_append_add, drop_append_le m q f (by omega),
        show p.length + l + 1 - (p.length + f) = l + 1 - f from by omega,
        take_append_le _ _ _ (by rw [List.length_drop]; omega)]

theorem hasPair_braceSlice_head {s : List Char} (h : hasPair s = true) :
    ∃ r, braceSlice s = '\x7b' :: r := by
  rw [hasPair] at h
  cases hf : firstIdx '\x7b' s with
  | none => rw [hf] at h; cases lastIdx '\x7d' s <;> simp at h
  | some f =>
    cases hl : lastIdx '\x7d' s with
    | none => rw [hf, hl] at h; simp at h
    | some l =>
      rw [hf, hl] at h
      have hfl : f < l := by simpa using h
      have hdrop := firstIdx_drop hf
      refine ⟨(s.drop (f + 1)).take (l - f), ?_⟩
      have hb : braceSlice s = (s.drop f).take (l + 1 - f) := by
        rw [braceSlice, hf, hl]
        exact if_pos hfl
      rw [hb, hdrop, show l + 1 - f = (l - f) + 1 from by omega, List.take_succ_cons]

theorem lastIdx_getLast {l : List Char} {c : Char} (h : l.getLast? = some c) :
    lastIdx c l = some (l.length - 1) := by
  induction l with
  | nil => simp at h
  | cons a l ih =>
    cases l with
    | nil =>
      rw [List.getLast?_singleton] at h
      simp only [Option.some.injEq] at h
      subst h
      simp [lastIdx]
    | cons b l2 =>
      rw [List.getLast?_cons_cons] at h
      have hr := ih h
      rw [lastIdx, hr]
      simp [List.length_cons]

theorem braceSlice_eq_self {o : List Char} (hh : o.head? = some '\x7b')
    (hl : o.getLast? = some '\x7d') : braceSlice o = o ∧ hasPair o = true := by
  obtain ⟨r, rfl⟩ : ∃ r, o = '\x7b' :: r := by
    cases o with
    | nil => simp at hh
    | cons a r =>
      simp only [List.head?_cons, Option.some.injEq] at hh
      exact ⟨r, by rw [hh]⟩
  have hf : firstIdx '\x7b' ('\x7b' :: r) = some 0 := by simp [firstIdx]
  have hlast : lastIdx '\x7d' ('\x7b' :: r) = some (('\x7b' :: r).length - 1) :=
    lastIdx_getLast hl
  have hrne : r ≠ [] := by
    rintro rfl
    rw [List.getLast?_singleton] at hl
    simp at hl
  have hpos : 0 < ('\x7b' :: r).length - 1 := by
    cases r with
    | nil => exact absurd rfl hrne
    | cons b r2 => simp
  constructor
  · have hb : braceSlice ('\x7b' :: r) =
        (('\x7b' :: r).drop 0).take (('\x7b' :: r).length - 1 + 1 - 0) := by
      rw [braceSlice, hf, hlast]
      exact if_pos hpos
    rw [hb, List.drop_zero,
      show ('\x7b' :: r).length - 1 + 1 - 0 = ('\x7b' :: r).length from by
        simp [List.length_cons],
      List.take_length]
  · rw [hasPair, hf, hlast]
    simpa using hpos

theorem parseVal_brace_obj {fuel : Nat} {r rest : List Char} {v : JsonValue}
    (h : parseVal fuel ('\x7b' :: r) = some (v, rest)) :
    ∃ kvs, v = JsonValue.obj kvs := by
  cases fuel with
  | zero => simp [parseVal] at h
  | succ f =>
    rw [parseVal] at h
    rw [if_pos rfl] at h
    split at h
    · simp only [Option.some.injEq, Prod.mk.injEq] at h
      exact ⟨[], h.1.symm⟩
    · rw [Option.map_eq_some'] at h
      obtain ⟨p, hp, hv⟩ := h
      simp only [Prod.mk.injEq] at hv
      exact ⟨p.1, hv.1.symm⟩

theorem json_loads_brace_obj {c : List Char} {v : JsonValue}
    (hhead : ∃ r, c = '\x7b' :: r) (h : json_loads c = some v) :
    ∃ kvs, v = JsonValue.obj kvs := by
  obtain ⟨r, rfl⟩ := hhead
  have hs : skipWs ('\x7b' :: r) = '\x7b' :: r := by
    rw [skipWs, List.dropWhile_cons]
    simp [isJsonWs]
  rw [json_loads, hs] at h
  split at h
  · next v2 rest2 hp =>
    split at h
    · simp only [Option.some.injEq] at h
      subst h
      exact parseVal_brace_obj hp
    · simp at h
  · simp at h

/-- C6: the Fallback Generator is a pure function of the skill name that
returns exactly the seven fixed task templates (study fundamentals,
tutorial, exercises, project, documentation, community, portfolio), hence
exactly 7 tasks and identical output on identical input. -/
theorem fallback_tasks_fixed_template (skill : List Char) :
    fallback_tasks skill =
      [ ("Study ".toList) ++ skill ++ (" fundamentals and core concepts".toList),
        ("Complete online ".toList) ++ skill ++ (" tutorial or course".toList),
        ("Practice ".toList) ++ skill ++ (" with hands-on exercises".toList),
        ("Build a small project using ".toList) ++ skill,
        ("Read ".toList) ++ skill ++ (" documentation and best practices".toList),
        ("Join ".toList) ++ skill ++ (" community and participate in discussions".toList),
        ("Create a portfolio piece showcasing ".toList) ++ skill ] ∧
    (fallback_tasks skill).length = 7 := by
  exact ⟨rfl, rfl⟩

/-- C7: without an explicit missing-skills list, the weekly-task generator
extracts skills from the resolved resume (one backend call) and returns
immediately with those extracted skills, an empty missing-skills list and an
empty weekly-tasks list; no task-generation call is issued. -/
theorem weekly_resume_path_returns_empty (req : WeeklyLearningTaskRequest)
    (store : List Char → Option (List Char)) (b : Nat → BackendReply) (t : List Char)
    (hm : req.missing_skills = none)
    (hr : resolveResume req.resume_text req.resume_id store = Except.ok t) :
    weekly_learning_task_generator req store b =
      (Except.ok ⟨extractSkillsStage (b 0), [], JsonValue.arr []⟩, 1) := by
  simp [weekly_learning_task_generator, hm, hr]

theorem weekly_resume_path_returns_empty_witness :
    weekly_learning_task_generator ⟨some ("x".toList), none, none⟩ (fun _ => none)
      (fun _ => BackendReply.badStatus) =
      (Except.ok ⟨JsonValue.arr [], [], JsonValue.arr []⟩, 1) := by
  exact weekly_resume_path_returns_empty ⟨some ("x".toList), none, none⟩ (fun _ => none)
    (fun _ => BackendReply.badStatus) ("x".toList) rfl rfl

/-- C8: a request supplying neither inline resume text nor a resume
identifier (nor, for the task generator, a missing-skills list) is rejected
with the validation client error at every analysis entry point, with zero
backend calls issued. -/
theorem validation_rejects_empty_requests (store : List Char → Option (List Char))
    (b : Nat → BackendReply) (jd : Option (List Char)) (role : List Char) :
    analyze_skills ⟨none, none, jd⟩ store b = (Except.error HttpError.validation400, 0) ∧
    skill_gap_analysis ⟨none, none, role⟩ store b = (Except.error HttpError.validation400, 0) ∧
    weekly_learning_task_generator ⟨none, none, none⟩ store b =
      (Except.error HttpError.validation400, 0) := by
  exact ⟨rfl, rfl, rfl⟩

/-- C9: skill analysis is deterministic with respect to its inputs and the
backend completion: backends agreeing on the single call give identical
endpoint outputs, and when the completion parses to an object the skills
field is returned exactly as parsed (order preserved). -/
theorem analyze_skills_deterministic :
    (∀ (req : SkillAnalysisRequest) (store : List Char → Option (List Char))
        (b b2 : Nat → BackendReply), b 0 = b2 0 →
        analyze_skills req store b = analyze_skills req store b2) ∧
    (∀ (req : SkillAnalysisRequest) (store : List Char → Option (List Char))
        (b : Nat → BackendReply) (t body : List Char) (kvs : List (List Char × JsonValue)),
        resolveResume req.resume_text req.resume_id store = Except.ok t →
        b 0 = BackendReply.ok body →
        json_loads (braceSlice (stripFences body)) = some (JsonValue.obj kvs) →
        analyze_skills req store b =
          (Except.ok (AnalyzeOutcome.fields (jget kvs ("skills".toList) (JsonValue.arr []))
            (jget kvs ("years_experience".toList) JsonValue.null)
            (jget kvs ("role_suggestions".toList) (JsonValue.arr []))), 1)) := by
  constructor
  · intro req store b b2 hb
    rw [analyze_skills, analyze_skills, hb]
  · intro req store b t body kvs hr hb hj
    have ha : analyzeExtract body = AnalyzeOutcome.fields
        (jget kvs ("skills".toList) (JsonValue.arr []))
        (jget kvs ("years_experience".toList) JsonValue.null)
        (jget kvs ("role_suggestions".toList) (JsonValue.arr [])) := by
      rw [analyzeExtract, hj]
    simp [analyze_skills, hr, hb, ha]

theorem analyze_skills_deterministic_witness :
    analyze_skills ⟨some ("r".toList), none, none⟩ (fun _ => none)
      (fun _ => BackendReply.ok ("\x7b\"skills\": [\"Python\", \"SQL\"]\x7d".toList)) =
      (Except.ok (AnalyzeOutcome.fields
        (JsonValue.arr [JsonValue.str ("Python".toList), JsonValue.str ("SQL".toList)])
        JsonValue.null (JsonValue.arr [])), 1) := by
  exact analyze_skills_deterministic.2 ⟨some ("r".toList), none, none⟩ (fun _ => none)
    (fun _ => BackendReply.ok ("\x7b\"skills\": [\"Python\", \"SQL\"]\x7d".toList))
    ("r".toList) ("\x7b\"skills\": [\"Python\", \"SQL\"]\x7d".toList)
    [(("skills".toList),
      JsonValue.arr [JsonValue.str ("Python".toList), JsonValue.str ("SQL".toList)])]
    rfl rfl (by rfl)

/-- C10: an explicitly supplied empty missing-skills list is treated
identically to an absent one at the weekly-task generator: the outputs
coincide for every request, and with neither resume text nor identifier the
request is rejected with the validation error rather than answered with an
empty task result. -/
theorem weekly_empty_skills_treated_as_absent (text id : Option (List Char))
    (store : List Char → Option (List Char)) (b : Nat → BackendReply) :
    weekly_learning_task_generator ⟨text, id, some []⟩ store b =
      weekly_learning_task_generator ⟨text, id, none⟩ store b ∧
    weekly_learning_task_generator ⟨none, none, some []⟩ store b =
      (Except.error HttpError.validation400, 0) := by
  exact ⟨rfl, rfl⟩

/-- C1 counterexample: a completion parsing to a non-object JSON value is
among the malformed inputs the claim says must degrade to defaults, but the
analyze_skills extraction raises (the ValueError escapes the
json.JSONDecodeError handler) and the endpoint turns it into a 500 server
error, while the plain extraction sites degrade on the same input. -/
theorem analyze_nonobject_raises_500 :
    analyzeExtract ("[1, 2]".toList) = AnalyzeOutcome.serverError ∧
    extractSkillsStage (BackendReply.ok ("[1, 2]".toList)) = JsonValue.arr [] ∧
    analyze_skills ⟨some ("r".toList), none, none⟩ (fun _ => none)
      (fun _ => BackendReply.ok ("[1, 2]".toList)) =
      (Except.error HttpError.serverError500, 1) := by
  exact ⟨rfl, rfl, rfl⟩

/-- C1 (amended): extraction never raises on completions that fail JSON
decoding (empty, truncated, no braces): analyze_skills returns the degraded
default response with a 500-character snippet, and the plain extraction
sites return the caller-supplied defaults; the plain sites also default on
non-object parses, but in analyze_skills a completion parsing to a
non-object JSON value escapes as the server-error path instead. -/
theorem extractor_degrades_on_decode_failure :
    (∀ raw : List Char, json_loads (braceSlice (stripFences raw)) = none →
      analyzeExtract raw = AnalyzeOutcome.degraded ((stripFences raw).take 500)) ∧
    (∀ (raw : List Char) (v : JsonValue),
      json_loads (braceSlice (stripFences raw)) = some v →
      (∀ kvs, v ≠ JsonValue.obj kvs) →
      analyzeExtract raw = AnalyzeOutcome.serverError) ∧
    (∀ (raw fld : List Char) (d : JsonValue),
      json_loads (braceSlice (pyStrip raw)) = none → extractField raw fld d = d) ∧
    (∀ (raw fld : List Char) (d v : JsonValue),
      json_loads (braceSlice (pyStrip raw)) = some v →
      (∀ kvs, v ≠ JsonValue.obj kvs) →
      extractField raw fld d = d) := by
  refine ⟨?_, ?_, ?_, ?_⟩
  · intro raw hj
    rw [analyzeExtract, hj]
  · intro raw v hj hne
    rw [analyzeExtract, hj]
    cases v with
    | obj kvs => exact absurd rfl (hne kvs)
    | null => rfl
    | bool b => rfl
    | num t => rfl
    | str s => rfl
    | arr xs => rfl
  · intro raw fld d hj
    rw [extractField, hj]
  · intro raw fld d v hj hne
    rw [extractField, hj]
    cases v with
    | obj kvs => exact absurd rfl (hne kvs)
    | null => rfl
    | bool b => rfl
    | num t => rfl
    | str s => rfl
    | arr xs => rfl

theorem extractor_degrades_on_decode_failure_witness :
    analyzeExtract ("I cannot help with that.".toList) =
      AnalyzeOutcome.degraded ("I cannot help with that.".toList) ∧
    analyzeExtract ("null".toList) = AnalyzeOutcome.serverError ∧
    extractField ("".toList) ("missing_skills".toList) (JsonValue.arr []) = JsonValue.arr [] ∧
    extractField ("[1, 2]".toList) ("skills".toList) (JsonValue.arr []) = JsonValue.arr [] := by
  refine ⟨?_, ?_, ?_, ?_⟩
  · exact extractor_degrades_on_decode_failure.1 ("I cannot help with that.".toList) (by rfl)
  · exact extractor_degrades_on_decode_failure.2.1 ("null".toList) JsonValue.null (by rfl)
      (fun kvs h => JsonValue.noConfusion h)
  · exact extractor_degrades_on_decode_failure.2.2.1 ("".toList) ("missing_skills".toList)
      (JsonValue.arr []) (by rfl)
  · exact extractor_degrades_on_decode_failure.2.2.2 ("[1, 2]".toList) ("skills".toList)
      (JsonValue.arr []) (JsonValue.arr [JsonValue.num ['1'], JsonValue.num ['2']]) (by rfl)
      (fun kvs h => JsonValue.noConfusion h)

/-- C4 counterexample: with the backend fully unreachable (every call a
connection error), the resume path of the weekly-task generator still returns a
normal 200 success with empty lists instead of aborting with a
service-unavailable error, although its only backend call failed with a
connection error. -/
theorem weekly_success_despite_unavailable_backend :
    weekly_learning_task_generator ⟨some ("resume".toList), none, none⟩ (fun _ => none)
      (fun _ => BackendReply.connectError) =
      (Except.ok ⟨JsonValue.arr [], [], JsonValue.arr []⟩, 1) := rfl

/-- C4 (amended): full backend unavailability aborts skill analysis, gap
analysis, and the explicit-missing-skills path of the task generator with
the 503 service-unavailable error; but the resume path of the task generator
swallows the connection error inside the skill-extraction helper and
returns a normal success with empty skills and tasks. -/
theorem backend_unavailable_behavior (store : List Char → Option (List Char))
    (b : Nat → BackendReply) (hb : ∀ n, b n = BackendReply.connectError) :
    (∀ (req : SkillAnalysisRequest) (t : List Char),
      resolveResume req.resume_text req.resume_id store = Except.ok t →
      analyze_skills req store b = (Except.error HttpError.unavailable503, 1)) ∧
    (∀ (req : SkillGapAnalysisRequest) (t : List Char),
      resolveResume req.resume_text req.resume_id store = Except.ok t →
      skill_gap_analysis req store b = (Except.error HttpError.unavailable503, 2)) ∧
    (∀ (req : WeeklyLearningTaskRequest) (sk : List Char) (rest : List (List Char)),
      req.missing_skills = some (sk :: rest) →
      weekly_learning_task_generator req store b = (Except.error HttpError.unavailable503, 1)) ∧
    (∀ (req : WeeklyLearningTaskRequest) (t : List Char),
      (req.missing_skills = none ∨ req.missing_skills = some []) →
      resolveResume req.resume_text req.resume_id store = Except.ok t →
      weekly_learning_task_generator req store b =
        (Except.ok ⟨JsonValue.arr [], [], JsonValue.arr []⟩, 1)) := by
  refine ⟨?_, ?_, ?_, ?_⟩
  · intro req t hr
    simp [analyze_skills, hr, hb 0]
  · intro req t hr
    simp [skill_gap_analysis, hr, hb 0, hb 1, extractSkillsStage, pyTruthy]
  · intro req sk rest hm
    simp [weekly_learning_task_generator, hm, hb 0]
  · intro req t hm hr
    rcases hm with hm | hm <;>
      simp [weekly_learning_task_generator, hm, hr, hb 0, extractSkillsStage]

theorem backend_unavailable_behavior_witness :
    analyze_skills ⟨some ("r".toList), none, none⟩ (fun _ => none)
      (fun _ => BackendReply.connectError) = (Except.error HttpError.unavailable503, 1) ∧
    skill_gap_analysis ⟨some ("r".toList), none, ("Data Engineer".toList)⟩ (fun _ => none)
      (fun _ => BackendReply.connectError) = (Except.error HttpError.unavailable503, 2) ∧
    weekly_learning_task_generator ⟨none, none, some [("Go".toList)]⟩ (fun _ => none)
      (fun _ => BackendReply.connectError) = (Except.error HttpError.unavailable503, 1) := by
  have h := backend_unavailable_behavior (fun _ => none) (fun _ => BackendReply.connectError)
    (fun _ => rfl)
  exact ⟨h.1 _ ("r".toList) rfl, h.2.1 _ ("r".toList) rfl, h.2.2.1 _ ("Go".toList) [] rfl⟩

/-- C2 counterexample: with two missing skills and a successful model
response containing a single group of eight tasks, the task stage returns
that one group untouched: one group for two skills, eight tasks (no
truncation to seven), and no backfill for the skill whose group is absent. -/
theorem taskgen_passthrough_counterexample :
    ((weekly_learning_task_generator ⟨none, none, some [("A".toList), ("B".toList)]⟩
      (fun _ => none)
      (fun _ => BackendReply.ok
        ("\x7b\"weekly_tasks\": [\x7b\"skill\": \"A\", \"tasks\": [\"t1\", \"t2\", \"t3\", \"t4\", \"t5\", \"t6\", \"t7\", \"t8\"]\x7d]\x7d".toList))).1.toOption.map
      (fun r => (r.missing_skills.length, arrLen r.weekly_tasks,
        groupTasksLen (firstGroup r.weekly_tasks)))) = some (2, 1, 8) := by
  rfl

/-- C2 (amended): the task stage returns the parsed weekly_tasks value of
the model response unchanged whenever it is non-empty, with no per-skill
backfill and no truncation; when the parsed value is the empty list (absent
field, parse failure, non-object response, or an explicit empty list) the
Fallback Generator runs and produces exactly one group per missing skill,
each group with exactly seven tasks; and a parsed value that is falsy but
not a list (empty string, zero, false, null, empty dict) makes the append
call of the fallback loop raise an uncaught AttributeError, surfaced as a
500 server error. -/
theorem taskgen_fallback_groups (missing : List (List Char)) (sk0 : List Char)
    (rest : List (List Char)) (hm : missing = sk0 :: rest)
    (store : List Char → Option (List Char)) (b : Nat → BackendReply) (body : List Char)
    (hb : b 0 = BackendReply.ok body) :
    (extractField body ("weekly_tasks".toList) (JsonValue.arr []) = JsonValue.arr [] →
      weekly_learning_task_generator ⟨none, none, some missing⟩ store b =
        (Except.ok ⟨JsonValue.arr [], missing, fallbackGroups missing⟩, 1) ∧
      arrLen (fallbackGroups missing) = missing.length ∧
      (∀ g ∈ pyIterVals (fallbackGroups missing), groupTasksLen g = 7)) ∧
    (pyTruthy (extractField body ("weekly_tasks".toList) (JsonValue.arr [])) = true →
      weekly_learning_task_generator ⟨none, none, some missing⟩ store b =
        (Except.ok ⟨JsonValue.arr [], missing,
          extractField body ("weekly_tasks".toList) (JsonValue.arr [])⟩, 1)) ∧
    (pyTruthy (extractField body ("weekly_tasks".toList) (JsonValue.arr [])) = false →
      isList (extractField body ("weekly_tasks".toList) (JsonValue.arr [])) = false →
      weekly_learning_task_generator ⟨none, none, some missing⟩ store b =
        (Except.error HttpError.serverError500, 1)) := by
  refine ⟨?_, ?_, ?_⟩
  · intro hempty
    refine ⟨?_, ?_, ?_⟩
    · subst hm
      have hf2 : extractField body
          ['w', 'e', 'e', 'k', 'l', 'y', '_', 't', 'a', 's', 'k', 's']
          (JsonValue.arr []) = JsonValue.arr [] := hempty
      simp [weekly_learning_task_generator, hb, hf2, pyTruthy, isList]
    · simp [fallbackGroups, fallbackGroupsJ, arrLen]
    · intro g hg
      simp only [fallbackGroups, fallbackGroupsJ, pyIterVals, List.map_map,
        List.mem_map] at hg
      obtain ⟨sk, _, rfl⟩ := hg
      simp [groupTasksLen, jget, arrLen, fallback_tasks]
  · intro htrue
    subst hm
    have ht2 : pyTruthy (extractField body
        ['w', 'e', 'e', 'k', 'l', 'y', '_', 't', 'a', 's', 'k', 's']
        (JsonValue.arr [])) = true := htrue
    simp [weekly_learning_task_generator, hb, ht2]
  · intro hfalse hnotlist
    subst hm
    have hf2 : pyTruthy (extractField body
        ['w', 'e', 'e', 'k', 'l', 'y', '_', 't', 'a', 's', 'k', 's']
        (JsonValue.arr [])) = false := hfalse
    have hl2 : isList (extractField body
        ['w', 'e', 'e', 'k', 'l', 'y', '_', 't', 'a', 's', 'k', 's']
        (JsonValue.arr [])) = false := hnotlist
    simp [weekly_learning_task_generator, hb, hf2, hl2]

theorem taskgen_fallback_groups_witness :
    weekly_learning_task_generator ⟨none, none, some [("Kubernetes".toList)]⟩ (fun _ => none)
      (fun _ => BackendReply.ok ("oops".toList)) =
      (Except.ok ⟨JsonValue.arr [], [("Kubernetes".toList)],
        fallbackGroups [("Kubernetes".toList)]⟩, 1) ∧
    arrLen (fallbackGroups [("Kubernetes".toList)]) = 1 ∧
    weekly_learning_task_generator ⟨none, none, some [("Go".toList)]⟩ (fun _ => none)
      (fun _ => BackendReply.ok ("\x7b\"weekly_tasks\": \"\"\x7d".toList)) =
      (Except.error HttpError.serverError500, 1) := by
  have h1 := (taskgen_fallback_groups [("Kubernetes".toList)] ("Kubernetes".toList) [] rfl
    (fun _ => none) (fun _ => BackendReply.ok ("oops".toList)) ("oops".toList) rfl).1 (by rfl)
  have h2 := (taskgen_fallback_groups [("Go".toList)] ("Go".toList) [] rfl
    (fun _ => none) (fun _ => BackendReply.ok ("\x7b\"weekly_tasks\": \"\"\x7d".toList))
    ("\x7b\"weekly_tasks\": \"\"\x7d".toList) rfl).2.2 (by rfl) (by rfl)
  exact ⟨h1.1, by simpa using h1.2.1, h2⟩

/-- C5 counterexample: on the completion "null" the two extraction
procedures disagree: the analyze_skills procedure raises the server-error
path while the plain procedure used by the skill-extraction, gap and task
stages returns the default mapping; so they do not compute the same field
mapping for every raw completion. -/
theorem fenced_plain_divergence_on_null :
    analyzeExtract ("null".toList) = AnalyzeOutcome.serverError ∧
    extractSkillsStage (BackendReply.ok ("null".toList)) = JsonValue.arr [] ∧
    skillsOf (analyzeExtract ("null".toList)) ≠
      some (extractSkillsStage (BackendReply.ok ("null".toList))) := by
  refine ⟨rfl, rfl, ?_⟩
  intro h
  exact Option.noConfusion h

/-- C5 (amended): on every completion whose stripped text contains an
opening brace before a closing brace, fence stripping cannot change the
sliced JSON candidate, so the analyze_skills extraction computes the same
field mapping as the plain extraction of the other stages (and its
server-error path cannot trigger); without such a brace pair the two
procedures can disagree, as they do on "null". -/
theorem fenced_and_plain_extraction_agree_on_braced (raw : List Char)
    (h : hasPair (pyStrip raw) = true) :
    braceSlice (stripFences raw) = braceSlice (pyStrip raw) ∧
    skillsOf (analyzeExtract raw) = some (extractSkillsStage (BackendReply.ok raw)) := by
  obtain ⟨p, q, he, hp, hq⟩ := sandw_stripFences raw
  have htr := sandw_hasPair_braceSlice p (stripFences raw) q hp hq
  rw [← he] at htr
  have h2 : hasPair (stripFences raw) = true := by rw [← htr.1]; exact h
  have hslice : braceSlice (pyStrip raw) = braceSlice (stripFences raw) := htr.2 h2
  refine ⟨hslice.symm, ?_⟩
  obtain ⟨rr, hhead⟩ := hasPair_braceSlice_head h2
  cases hj : json_loads (braceSlice (stripFences raw)) with
  | none =>
    simp [analyzeExtract, extractSkillsStage, extractField, hslice, hj, skillsOf]
  | some v =>
    obtain ⟨kvs, rfl⟩ := json_loads_brace_obj ⟨rr, hhead⟩ hj
    simp [analyzeExtract, extractSkillsStage, extractField, hslice, hj, skillsOf]

theorem fenced_and_plain_agree_witness :
    hasPair (pyStrip ("```json\n\x7b\"skills\": [\"Python\", \"SQL\"]\x7d\n```".toList)) = true ∧
    skillsOf (analyzeExtract ("```json\n\x7b\"skills\": [\"Python\", \"SQL\"]\x7d\n```".toList)) =
      some (extractSkillsStage (BackendReply.ok
        ("```json\n\x7b\"skills\": [\"Python\", \"SQL\"]\x7d\n```".toList))) := by
  exact ⟨by rfl,
    (fenced_and_plain_extraction_agree_on_braced
      ("```json\n\x7b\"skills\": [\"Python\", \"SQL\"]\x7d\n```".toList) (by rfl)).2⟩

/-- C3 counterexample: this completion contains a single well-formed JSON
object, but a stray closing brace in the trailing prose widens the slice
from the first opening brace to the last closing brace, the parse fails,
and extraction returns the default instead of the field of the object. -/
theorem extraction_misses_object_with_stray_brace :
    extractField ("ok \x7b\"skills\": [\"A\"]\x7d bye\x7d".toList) ("skills".toList)
      (JsonValue.arr []) = JsonValue.arr [] ∧
    json_loads ("\x7b\"skills\": [\"A\"]\x7d".toList) =
      some (JsonValue.obj [(("skills".toList), JsonValue.arr [JsonValue.str ("A".toList)])]) ∧
    JsonValue.arr ([] : List JsonValue) ≠ JsonValue.arr [JsonValue.str ("A".toList)] := by
  refine ⟨rfl, rfl, ?_⟩
  intro h
  simp at h

/-- C3 (amended): for every completion that embeds a well-formed JSON object
between brace-free surrounding text (prose, fences and whitespace without
braces), extraction slices exactly that object and returns each requested
field present in it with its value, with the default for absent fields. -/
theorem extraction_recovers_embedded_object
    (p o q fld : List Char) (d : JsonValue) (kvs : List (List Char × JsonValue))
    (hp : braceFree p = true) (hq : braceFree q = true)
    (hh : o.head? = some '\x7b') (hl : o.getLast? = some '\x7d')
    (hparse : json_loads o = some (JsonValue.obj kvs)) :
    extractField (p ++ o ++ q) fld d = jget kvs fld d := by
  obtain ⟨hself, hpair⟩ := braceSlice_eq_self hh hl
  have h1 := sandw_hasPair_braceSlice p o q hp hq
  have hpairT : hasPair (p ++ o ++ q) = true := by rw [h1.1]; exact hpair
  have hsliceT : braceSlice (p ++ o ++ q) = o := (h1.2 hpair).trans hself
  obtain ⟨p2, q2, he2, hp2, hq2⟩ := sandw_pyStrip (p ++ o ++ q)
  have h2 := sandw_hasPair_braceSlice p2 (pyStrip (p ++ o ++ q)) q2 hp2 hq2
  rw [← he2] at h2
  have hpairS : hasPair (pyStrip (p ++ o ++ q)) = true := by rw [← h2.1]; exact hpairT
  have hsliceS : braceSlice (p ++ o ++ q) = braceSlice (pyStrip (p ++ o ++ q)) :=
    h2.2 hpairS
  rw [extractField, ← hsliceS, hsliceT, hparse]

theorem extraction_recovers_embedded_object_witness :
    extractField
      ("Sure! Here is the data: \x7b\"missing_skills\": [\"Go\"]\x7d Hope that helps.".toList)
      ("missing_skills".toList) (JsonValue.arr []) =
      JsonValue.arr [JsonValue.str ("Go".toList)] := by
  exact extraction_recovers_embedded_object ("Sure! Here is the data: ".toList)
    ("\x7b\"missing_skills\": [\"Go\"]\x7d".toList) (" Hope that helps.".toList)
    ("missing_skills".toList) (JsonValue.arr [])
    [(("missing_skills".toList), JsonValue.arr [JsonValue.str ("Go".toList)])]
    (by rfl) (by rfl) (by rfl) (by rfl) (by rfl)
